import Mathlib

/-!
Shallow embedding of the SPI flash driver in `chipsec/hal/spi.py` (the SPI
hardware-sequencing engine of Intel PCH chipsets) and proofs about it.

External collaborators (the MMIO primitive, the XML register catalog, the
kernel helper) are modelled as abstract parameters: the observable behaviour
of a driver call is its return value together with the trace of hardware
cycles / MMIO writes / catalog accesses it performs.  Python integers are
modelled as `Nat` (the driver only manipulates non-negative register values),
Python `None` / raised `SpiRuntimeError` as `Option` / `Except`.
-/

namespace ChipsecSpi

/-- Maximum data byte count of a SPI read cycle (`SPI_READ_WRITE_MAX_DBC`,
spi.py line 67). -/
def SPI_READ_WRITE_MAX_DBC : Nat := 64

/-- Default data byte count (`SPI_READ_WRITE_DEF_DBC`, spi.py line 68). -/
def SPI_READ_WRITE_DEF_DBC : Nat := 4

/-- Valid SFDP signature (`SFDP_HEADER`, spi.py line 69). -/
def SFDP_HEADER : Nat := 0x50444653

/-- Largest accepted protected-range index (`SPI_MAX_PR_COUNT`, spi.py
line 71). -/
def SPI_MAX_PR_COUNT : Nat := 5

/-- Shift from page number to flash linear address (`SPI_FLA_SHIFT`,
spi.py line 72). -/
def SPI_FLA_SHIFT : Nat := 12

/-- Modelled from the spec: `chipsec.defines.ALIGNED_4KB` (the `chipsec.defines`
module is not under src/).  The spec calls it the low-12 mask 0xFFF implied for
limits ("the low 12 bits of a limit are implicitly 0xFFF"). -/
def SPI_FLA_PAGE_MASK : Nat := 0xFFF

/-- Modelled from the spec: FGO is bit 0 of HSFC
(`Cfg.PCH_RCBA_SPI_HSFCTL_FCYCLE_FGO` from `chipsec/cfg/common.py`, which is
not under src/). -/
def PCH_RCBA_SPI_HSFCTL_FCYCLE_FGO : Nat := 1

/-- Modelled from the spec: FCYCLE encoding of a READ cycle
(`chipsec/cfg/common.py`, not under src/). -/
def PCH_RCBA_SPI_HSFCTL_FCYCLE_READ : Nat := 0

/-- Modelled from the spec: FCYCLE encoding of a WRITE cycle
(`chipsec/cfg/common.py`, not under src/). -/
def PCH_RCBA_SPI_HSFCTL_FCYCLE_WRITE : Nat := 2

/-- Modelled from the spec: FCYCLE encoding of an ERASE cycle
(`chipsec/cfg/common.py`, not under src/). -/
def PCH_RCBA_SPI_HSFCTL_FCYCLE_ERASE : Nat := 3

/-- Modelled from the spec: FCYCLE encoding of a JEDEC-ID cycle
(`chipsec/cfg/common.py`, not under src/). -/
def PCH_RCBA_SPI_HSFCTL_FCYCLE_JEDEC : Nat := 4

/-- Modelled from the spec: FCYCLE encoding of an SFDP cycle
(`chipsec/cfg/common.py`, not under src/). -/
def PCH_RCBA_SPI_HSFCTL_FCYCLE_SFDP : Nat := 5

/-- Aggregated READ command byte (`HSFCTL_READ_CYCLE`, spi.py line 76). -/
def HSFCTL_READ_CYCLE : Nat :=
  (PCH_RCBA_SPI_HSFCTL_FCYCLE_READ <<< 1) ||| PCH_RCBA_SPI_HSFCTL_FCYCLE_FGO

/-- Aggregated WRITE command byte (`HSFCTL_WRITE_CYCLE`, spi.py line 77). -/
def HSFCTL_WRITE_CYCLE : Nat :=
  (PCH_RCBA_SPI_HSFCTL_FCYCLE_WRITE <<< 1) ||| PCH_RCBA_SPI_HSFCTL_FCYCLE_FGO

/-- Aggregated ERASE command byte (`HSFCTL_ERASE_CYCLE`, spi.py line 78). -/
def HSFCTL_ERASE_CYCLE : Nat :=
  (PCH_RCBA_SPI_HSFCTL_FCYCLE_ERASE <<< 1) ||| PCH_RCBA_SPI_HSFCTL_FCYCLE_FGO

/-- Aggregated JEDEC command byte (`HSFCTL_JEDEC_CYCLE`, spi.py line 79). -/
def HSFCTL_JEDEC_CYCLE : Nat :=
  (PCH_RCBA_SPI_HSFCTL_FCYCLE_JEDEC <<< 1) ||| PCH_RCBA_SPI_HSFCTL_FCYCLE_FGO

/-- Aggregated SFDP command byte (`HSFCTL_SFDP_CYCLE`, spi.py line 80). -/
def HSFCTL_SFDP_CYCLE : Nat :=
  (PCH_RCBA_SPI_HSFCTL_FCYCLE_SFDP <<< 1) ||| PCH_RCBA_SPI_HSFCTL_FCYCLE_FGO

/-- One hardware cycle issued through `_send_spi_cycle`: the command byte,
the encoded data byte count (DBC minus one) passed to the engine and the
flash linear address. -/
structure SpiCycle where
  cmd : Nat
  dbc : Nat
  fla : Nat
deriving DecidableEq

/-- Abstract behaviour of the hardware and of the external collaborators as
observed by one bulk I/O call.  `fdv` is HSFS.FDV (read by
`check_hardware_sequencing`); `preWaitOk` is the result of the single
pre-flight `_wait_SPI_flash_cycle_done`; `cycleOk i` is the result of the
i-th `_send_spi_cycle` call of the operation (the driver issues cycles
strictly in order); `fdata ci idx` is the dword read from FDATA`idx` after
the ci-th cycle. -/
structure SpiHw where
  fdv : Bool
  preWaitOk : Bool
  cycleOk : Nat → Bool
  fdata : Nat → Nat → Nat

/-- Bytes appended for one successful full READ chunk: `dbc / 4` dwords are
read from FDATA0.. and unpacked little-endian (spi.py lines 604-608). -/
def readChunkBytes (hw : SpiHw) (ci dbc : Nat) : List Nat :=
  (List.range (dbc / 4)).flatMap fun fdata_idx =>
    (List.range 4).map fun j => (hw.fdata ci fdata_idx >>> (8 * j)) &&& 0xFF

/-- Bytes appended for a successful remainder READ chunk of `r` bytes:
`(r+3)/4` dwords are read and the last dword contributes only `r % 4` bytes
when `r % 4` is not zero (spi.py lines 616-624). -/
def readRemBytes (hw : SpiHw) (ci r : Nat) : List Nat :=
  let n_dwords := (r + 3) / 4
  (List.range n_dwords).flatMap fun fdata_idx =>
    let t := if fdata_idx = n_dwords - 1 ∧ r % 4 ≠ 0 then r % 4 else 4
    (List.range t).map fun j => (hw.fdata ci fdata_idx >>> (8 * j)) &&& 0xFF

/-- Chunk size chosen by `read_spi`: the maximum 64 when at least 64 bytes
are requested, otherwise the default 4 (spi.py lines 584-586). -/
def readDbc (data_byte_count : Nat) : Nat :=
  if data_byte_count ≥ SPI_READ_WRITE_MAX_DBC then SPI_READ_WRITE_MAX_DBC
  else SPI_READ_WRITE_DEF_DBC

/-- Embedding of `read_spi` (spi.py lines 579-630).  The first component is
the returned value: `Except.error ()` models the `SpiRuntimeError` raised by
`check_hardware_sequencing` when HSFS.FDV is 0, `Except.ok none` models the
`None` returned when the pre-flight wait fails, and `Except.ok (some buf)`
the returned byte list.  The second component is the trace of hardware
cycles issued, in order. -/
def read_spi (hw : SpiHw) (spi_fla data_byte_count : Nat) :
    Except Unit (Option (List Nat)) × List SpiCycle :=
  if hw.fdv = false then (Except.error (), []) else
  let dbc := readDbc data_byte_count
  let n := data_byte_count / dbc
  let r := data_byte_count % dbc
  if hw.preWaitOk = false then (Except.ok none, []) else
  let chunkBuf := (List.range n).flatMap fun i =>
    if hw.cycleOk i then readChunkBytes hw i dbc else []
  let chunkCycles := (List.range n).map fun i =>
    SpiCycle.mk HSFCTL_READ_CYCLE (dbc - 1) (spi_fla + i * dbc)
  let remPart :=
    if r = 0 then ([], [])
    else ((if hw.cycleOk n then readRemBytes hw n r else []),
          [SpiCycle.mk HSFCTL_READ_CYCLE (r - 1) (spi_fla + n * dbc)])
  (Except.ok (some (chunkBuf ++ remPart.1)), chunkCycles ++ remPart.2)

/-- One WRITE chunk issued by `write_spi`: the dword written to FDATA0, the
encoded data byte count and the flash linear address of the cycle. -/
structure WriteChunk where
  fdata0 : Nat
  dbc : Nat
  fla : Nat
deriving DecidableEq

/-- Little-endian dword packed from a full 4-byte chunk starting at `base`
(spi.py line 652). -/
def packDword (buf : List Nat) (base : Nat) : Nat :=
  (buf.getD (base + 3) 0 <<< 24) ||| (buf.getD (base + 2) 0 <<< 16) |||
  (buf.getD (base + 1) 0 <<< 8) ||| buf.getD base 0

/-- Little-endian dword packed from the `r`-byte remainder starting at
`base` (spi.py lines 663-665). -/
def packRemainder (buf : List Nat) (base r : Nat) : Nat :=
  (List.range r).foldl (fun acc j => acc ||| (buf.getD (base + j) 0 <<< (8 * j))) 0

/-- Embedding of `write_spi` (spi.py lines 632-673).  Returns the result
(`Except.error ()` for the `SpiRuntimeError` of `check_hardware_sequencing`,
`Except.ok none` for the `None` of a failed pre-flight wait, otherwise the
cumulative boolean `write_ok`) together with the trace of WRITE chunks
issued, in order. -/
def write_spi (hw : SpiHw) (spi_fla : Nat) (buf : List Nat) :
    Except Unit (Option Bool) × List WriteChunk :=
  if hw.fdv = false then (Except.error (), []) else
  let dbc := 4
  let n := buf.length / dbc
  let r := buf.length % dbc
  if hw.preWaitOk = false then (Except.ok none, []) else
  let ok0 := (List.range n).foldl (fun acc i => acc && hw.cycleOk i) true
  let chunks := (List.range n).map fun i =>
    WriteChunk.mk (packDword buf (i * dbc)) (dbc - 1) (spi_fla + i * dbc)
  if r = 0 then (Except.ok (some ok0), chunks)
  else (Except.ok (some (ok0 && hw.cycleOk n)),
        chunks ++ [WriteChunk.mk (packRemainder buf (n * dbc) r) (r - 1)
                     (spi_fla + n * dbc)])

/-- Initial state of the three BIOS-control bits as read through the
register catalog, plus the value `BiosWriteEnable` reads back after
`set_control(BiosWriteEnable, 1)` (the hardware may refuse the write when
the configuration is BLE-locked). -/
structure BiosCtl where
  ble : Nat
  bioswe : Nat
  smmbwp : Nat
  biosweAfterSet : Nat

/-- Embedding of `disable_BIOS_write_protection` (spi.py lines 455-481).
Returns the boolean result together with the trace of `set_control` calls
performed, as (control name, value) pairs. -/
def disable_BIOS_write_protection (s : BiosCtl) : Bool × List (String × Nat) :=
  if s.bioswe = 1 then (true, [])
  else (s.biosweAfterSet == 1, [("BiosWriteEnable", 1)])

/-- One MMIO register write performed through `spi_reg_write`: SPIBAR
relative offset, value and access size in bytes. -/
structure MMIOWrite where
  off : Nat
  val : Nat
  size : Nat
deriving DecidableEq

/-- SPIBAR-relative register offsets resolved from the catalog in the
constructor, and the FADDR mask (`Cfg.PCH_RCBA_SPI_FADDR_MASK`, an external
constant kept abstract). -/
structure SpiEnv where
  faddr_off : Nat
  hsfc_off : Nat
  faddrMask : Nat

/-- MMIO write trace of `_send_spi_cycle` (spi.py lines 516-537): the masked
flash address is written to FADDR (dword), then, for every command other
than ERASE, the encoded data byte count is written to HSFC+1 (byte), then
the command byte is written to HSFC (byte).  The HAL-logging reads of the
source are not writes and do not appear. -/
def sendSpiCycleWrites (env : SpiEnv) (cmd dbc fla : Nat) : List MMIOWrite :=
  [MMIOWrite.mk env.faddr_off (fla &&& env.faddrMask) 4] ++
  (if cmd ≠ HSFCTL_ERASE_CYCLE then [MMIOWrite.mk (env.hsfc_off + 1) dbc 1] else []) ++
  [MMIOWrite.mk env.hsfc_off cmd 1]

/-- Catalog and field accesses used by `get_SPI_Protected_Range`: register
offset and raw value by register name, and the PRB/PRL/WPE/RPE field
extractions of the external register catalog, kept abstract. -/
structure PrCatalog where
  regOffset : String → Nat
  regValue : String → Nat
  fieldPRB : String → Nat → Nat
  fieldPRL : String → Nat → Nat
  fieldWPE : String → Nat → Nat
  fieldRPE : String → Nat → Nat

/-- Register name built by `'PR%x' % pr_num` (spi.py line 278): `PR`
followed by the lowercase hexadecimal digits of `pr_num`. -/
def prName (pr_num : Nat) : String :=
  "PR" ++ String.mk (Nat.toDigits 16 pr_num)

/-- Decoded protected range as returned by `get_SPI_Protected_Range`:
`(base, limit, wpe, rpe, pr_j_reg, pr_j)`. -/
structure PrResult where
  base : Nat
  limit : Nat
  wpe : Bool
  rpe : Bool
  regOff : Nat
  raw : Nat
deriving DecidableEq

/-- Embedding of `get_SPI_Protected_Range` (spi.py lines 274-295). -/
def get_SPI_Protected_Range (cat : PrCatalog) (pr_num : Nat) : Option PrResult :=
  if pr_num > SPI_MAX_PR_COUNT then none
  else
    let pr_name := prName pr_num
    let pr_j_reg := cat.regOffset pr_name
    let pr_j := cat.regValue pr_name
    let base := cat.fieldPRB pr_name pr_j <<< SPI_FLA_SHIFT
    let limit := cat.fieldPRL pr_name pr_j <<< SPI_FLA_SHIFT
    let wpe := cat.fieldWPE pr_name pr_j != 0
    let rpe := cat.fieldRPE pr_name pr_j != 0
    let limit2 := if wpe || rpe then limit ||| SPI_FLA_PAGE_MASK else limit
    some (PrResult.mk base limit2 wpe rpe pr_j_reg pr_j)

/-- Number of flash regions in the descriptor (`SPI_REGION_NUMBER_IN_FD`,
spi.py line 102). -/
def SPI_REGION_NUMBER_IN_FD : Nat := 12

/-- Catalog view used by `get_SPI_region`: whether the FREGx register of a
region id is defined, and its raw value when read. -/
structure FregCatalog where
  defined : Nat → Bool
  raw : Nat → Nat

/-- Modelled from the spec: the external register catalog extraction of the
FREGx field RB (region base, FLA bits 24:12, held in the low bits of the
register).  The catalog XML itself is not under src/. -/
def fregRB (v : Nat) : Nat := v &&& 0x1FFF

/-- Modelled from the spec: the external register catalog extraction of the
FREGx field RL (region limit, FLA bits 24:12, held at bit 16 of the
register).  The catalog XML itself is not under src/. -/
def fregRL (v : Nat) : Nat := (v >>> 16) &&& 0x1FFF

/-- Embedding of `get_SPI_region` (spi.py lines 248-259): `none` models the
`(None, None, None)` returned for a region whose FREGx register the catalog
does not define; otherwise `(range_base, range_limit, freg)`. -/
def get_SPI_region (cat : FregCatalog) (r : Nat) : Option (Nat × Nat × Nat) :=
  if cat.defined r = false then none
  else
    let freg := cat.raw r
    let range_base := fregRB freg <<< SPI_FLA_SHIFT
    let range_limit := (fregRL freg <<< SPI_FLA_SHIFT) ||| SPI_FLA_PAGE_MASK
    some (range_base, range_limit, freg)

/-- Embedding of `get_SPI_regions` (spi.py lines 263-272).  Each entry is
`(region id, range_base, range_limit, range_size, freg)`; the size is an
integer because Python computes `range_limit - range_base + 1` without
truncation.  The region name string of the source tuple is omitted. -/
def get_SPI_regions (cat : FregCatalog) (all_regions : Bool) :
    List (Nat × Nat × Nat × Int × Nat) :=
  (List.range SPI_REGION_NUMBER_IN_FD).filterMap fun r =>
    match get_SPI_region cat r with
    | none => none
    | some (range_base, range_limit, freg) =>
      if all_regions || decide (range_limit ≥ range_base)
      then some (r, range_base, range_limit,
                 (range_limit : Int) - (range_base : Int) + 1, freg)
      else none

/-- Byte rearrangement applied by `get_SPI_JEDEC_ID` to the dword read from
FDATA0 (spi.py line 850). -/
def jedec_byteswap (id : Nat) : Nat :=
  ((id &&& 0xFF) <<< 16) ||| (id &&& 0xFF00) ||| ((id >>> 16) &&& 0xFF)

/-- Abstract collaborator behaviour seen by `get_SPI_JEDEC_ID`: whether the
catalog gives HSFS a FCYCLE field, HSFS.FDV, the result of the JEDEC cycle
and the dword subsequently read from FDATA0. -/
structure JedecHw where
  hasFcycle : Bool
  fdv : Bool
  cycleOk : Bool
  fdata0 : Nat

/-- Embedding of `get_SPI_JEDEC_ID` (spi.py lines 839-850).  `Except.ok
none` models the `False` returned when HSFS has no FCYCLE field;
`Except.error ()` the `SpiRuntimeError` of `check_hardware_sequencing`.  A
failed JEDEC cycle is only logged: FDATA0 is read and decoded regardless. -/
def get_SPI_JEDEC_ID (hw : JedecHw) : Except Unit (Option Nat) × List SpiCycle :=
  if hw.hasFcycle then
    if hw.fdv = false then (Except.error (), [])
    else (Except.ok (some (jedec_byteswap hw.fdata0)),
          [SpiCycle.mk HSFCTL_JEDEC_CYCLE 4 0])
  else (Except.ok none, [])

/-- Abstract BIOS_PTINX/BIOS_PTDATA window: `ptdata v` is the dword read
from BIOS_PTDATA while BIOS_PTINX holds `v`. -/
structure PtWindow where
  ptdata : Nat → Nat

/-- Components for which `get_SPI_SFDP` (spi.py lines 746-759) recognizes a
valid SFDP header and proceeds to parse: component 0 and 1 are probed by
writing `0x0000 | (component << 14)` to BIOS_PTINX and comparing the dword
read from BIOS_PTDATA against `SFDP_HEADER`; a component whose signature
does not match is skipped (`continue`). -/
def get_SPI_SFDP_validComponents (hw : PtWindow) : List Nat :=
  (List.range 2).filter fun component =>
    let offset := 0x0000 ||| (component <<< 14)
    hw.ptdata offset == SFDP_HEADER

/-- Hardware behaviour with FDV set, every wait and cycle succeeding and
all FDATA registers reading 0; used to instantiate concrete scenarios. -/
def hwAllOk : SpiHw :=
  SpiHw.mk true true (fun _ => true) (fun _ _ => 0)

/-- Concrete FREGx catalog for the decode scenario of the spec: every
region register defined, FREG1 reading 0x0BFF0003. -/
def fregExampleCat : FregCatalog :=
  FregCatalog.mk (fun _ => true) (fun _ => 0x0BFF0003)

/-!  Theorems settling the claims. -/

/-- C10: `get_SPI_Protected_Range cat pr_num` returns `none` if and only if
`pr_num > 5`; in particular `pr_num = 5` is accepted, and the register name
it decodes is `PR5` (even though only PR0..PR4 are documented). -/
theorem protected_range_C10 (cat : PrCatalog) (pr_num : Nat) :
    (get_SPI_Protected_Range cat pr_num = none ↔ pr_num > 5) ∧
    (get_SPI_Protected_Range cat 5).isSome = true ∧
    prName 5 = "PR5" := by
  refine ⟨?_, rfl, rfl⟩
  unfold get_SPI_Protected_Range
  split
  next h => simp only [SPI_MAX_PR_COUNT] at h; simp [h]
  next h => simp only [SPI_MAX_PR_COUNT] at h; simp [h]

/-- C9: for each component in {0, 1}, `get_SPI_SFDP` treats the component
as having a valid SFDP header and proceeds to parse it if and only if the
dword read from BIOS_PTDATA after writing `component <<< 14` to BIOS_PTINX
equals 0x50444653; otherwise the component is skipped. -/
theorem sfdp_C9 (hw : PtWindow) (c : Nat) :
    c ∈ get_SPI_SFDP_validComponents hw ↔
      c < 2 ∧ hw.ptdata (c <<< 14) = 0x50444653 := by
  unfold get_SPI_SFDP_validComponents
  simp [List.mem_filter, List.mem_range, SFDP_HEADER]

/-- C7: within one `_send_spi_cycle` invocation the MMIO write trace puts
the masked FADDR write before the DBC byte write and the DBC byte write
before the HSFC command byte write; ERASE cycles never write the DBC byte
at HSFC+1, every other cycle command writes it. -/
theorem send_cycle_C7 (env : SpiEnv) (cmd dbc fla : Nat) :
    (cmd = HSFCTL_ERASE_CYCLE →
      sendSpiCycleWrites env cmd dbc fla =
        [MMIOWrite.mk env.faddr_off (fla &&& env.faddrMask) 4,
         MMIOWrite.mk env.hsfc_off cmd 1]) ∧
    (cmd ≠ HSFCTL_ERASE_CYCLE →
      sendSpiCycleWrites env cmd dbc fla =
        [MMIOWrite.mk env.faddr_off (fla &&& env.faddrMask) 4,
         MMIOWrite.mk (env.hsfc_off + 1) dbc 1,
         MMIOWrite.mk env.hsfc_off cmd 1]) ∧
    (MMIOWrite.mk (env.hsfc_off + 1) dbc 1 ∈ sendSpiCycleWrites env cmd dbc fla ↔
      cmd ≠ HSFCTL_ERASE_CYCLE) := by
  by_cases h : cmd = HSFCTL_ERASE_CYCLE
  · have htr : sendSpiCycleWrites env cmd dbc fla =
        [MMIOWrite.mk env.faddr_off (fla &&& env.faddrMask) 4,
         MMIOWrite.mk env.hsfc_off cmd 1] := by
      unfold sendSpiCycleWrites
      rw [if_neg (not_not_intro h)]
      rfl
    refine ⟨fun _ => htr, fun hc => absurd h hc, ?_⟩
    rw [htr]
    constructor
    · intro hmem
      exfalso
      rcases List.mem_cons.mp hmem with h1 | h2
      · have h1s : (1 : Nat) = 4 := congrArg MMIOWrite.size h1
        omega
      · rcases List.mem_cons.mp h2 with h3 | h4
        · have h3s : env.hsfc_off + 1 = env.hsfc_off := congrArg MMIOWrite.off h3
          omega
        · exact List.not_mem_nil _ h4
    · intro hc; exact absurd h hc
  · have htr : sendSpiCycleWrites env cmd dbc fla =
        [MMIOWrite.mk env.faddr_off (fla &&& env.faddrMask) 4,
         MMIOWrite.mk (env.hsfc_off + 1) dbc 1,
         MMIOWrite.mk env.hsfc_off cmd 1] := by
      unfold sendSpiCycleWrites
      rw [if_pos h]
      rfl
    refine ⟨fun hc => absurd hc h, fun _ => htr, ?_⟩
    rw [htr]
    constructor
    · intro _; exact h
    · intro _; exact List.mem_cons_of_mem _ (List.mem_cons_self _ _)

/-- C7 witness: an ERASE cycle at FLA 0x10000 on a concrete register layout
writes only the masked FADDR and then the command byte. -/
theorem send_cycle_C7_witness :
    sendSpiCycleWrites (SpiEnv.mk 8 6 0xFFFF) HSFCTL_ERASE_CYCLE 0 0x10000 =
      [MMIOWrite.mk 8 (0x10000 &&& 0xFFFF) 4,
       MMIOWrite.mk 6 HSFCTL_ERASE_CYCLE 1] :=
  (send_cycle_C7 (SpiEnv.mk 8 6 0xFFFF) HSFCTL_ERASE_CYCLE 0 0x10000).1 rfl

/-- C2 counterexample: with BiosWriteEnable initially 1 (and a hardware
whose post-write readback would be 0), `disable_BIOS_write_protection`
returns true and performs no `set_control` write at all, contradicting the
claim that BiosWriteEnable is set to 1 unconditionally and re-read. -/
theorem disable_bwp_C2_counterexample :
    disable_BIOS_write_protection (BiosCtl.mk 0 1 0 0) = (true, []) ∧
    (disable_BIOS_write_protection (BiosCtl.mk 0 1 0 0)).2 ≠
      [("BiosWriteEnable", 1)] := by
  exact ⟨rfl, by decide⟩

/-- C2 (amended): if BiosWriteEnable already reads 1,
`disable_BIOS_write_protection` returns true immediately without writing
any control; otherwise it sets BiosWriteEnable to 1, re-reads it, and
returns true if and only if it reads back as 1. -/
theorem disable_bwp_C2_amended (s : BiosCtl) :
    (s.bioswe = 1 → disable_BIOS_write_protection s = (true, [])) ∧
    (s.bioswe ≠ 1 →
      disable_BIOS_write_protection s =
        ((s.biosweAfterSet == 1), [("BiosWriteEnable", 1)])) := by
  unfold disable_BIOS_write_protection
  constructor
  · intro h; rw [if_pos h]
  · intro h; rw [if_neg h]

/-- C2 witness: with BiosWriteEnable initially 0 and a hardware that
accepts the write, the control write is issued and the result is true. -/
theorem disable_bwp_C2_witness :
    disable_BIOS_write_protection (BiosCtl.mk 1 0 0 1) =
      (true, [("BiosWriteEnable", 1)]) := by
  have h := (disable_bwp_C2_amended (BiosCtl.mk 1 0 0 1)).2 (by decide)
  simpa using h

/-- C5: for every protected-range register value, the limit returned by
`get_SPI_Protected_Range` has the low-12 mask 0xFFF ORed in if and only if
WPE or RPE is set; when both are clear the returned limit is exactly
PRL shifted left by 12, with its low 12 bits equal to 0 (left unchanged
from the shifted raw field). -/
theorem protected_range_C5 (cat : PrCatalog) (pr_num : Nat)
    (h : pr_num ≤ SPI_MAX_PR_COUNT) :
    ∃ res : PrResult,
      get_SPI_Protected_Range cat pr_num = some res ∧
      res.limit = (if res.wpe || res.rpe
        then (cat.fieldPRL (prName pr_num) (cat.regValue (prName pr_num)) <<<
                SPI_FLA_SHIFT) ||| SPI_FLA_PAGE_MASK
        else cat.fieldPRL (prName pr_num) (cat.regValue (prName pr_num)) <<<
                SPI_FLA_SHIFT) ∧
      (res.wpe = false → res.rpe = false →
        res.limit = cat.fieldPRL (prName pr_num) (cat.regValue (prName pr_num)) <<<
                SPI_FLA_SHIFT ∧
        res.limit % 4096 = 0) := by
  have hn : ¬ pr_num > SPI_MAX_PR_COUNT := by omega
  unfold get_SPI_Protected_Range
  rw [if_neg hn]
  refine ⟨_, rfl, rfl, ?_⟩
  intro h1 h2
  simp only [bne_eq_false_iff_eq] at h1 h2
  constructor
  · simp [h1, h2]
  · simp only [h1, h2]
    simp [Nat.shiftLeft_eq, SPI_FLA_SHIFT]

/-- Concrete protected-range catalog with WPE = RPE = 0 and PRL = 0x123,
used to instantiate the C5 theorem. -/
def prExampleCat : PrCatalog :=
  PrCatalog.mk (fun _ => 0x84) (fun _ => 0) (fun _ _ => 0x45)
    (fun _ _ => 0x123) (fun _ _ => 0) (fun _ _ => 0)

/-- C5 witness: a concrete protected range with WPE = RPE = 0 and
PRL = 0x123 decodes to a limit of exactly 0x123 shifted left by 12. -/
theorem protected_range_C5_witness :
    ∃ res : PrResult,
      get_SPI_Protected_Range prExampleCat 0 = some res ∧
      res.limit = (if res.wpe || res.rpe
        then (0x123 <<< SPI_FLA_SHIFT) ||| SPI_FLA_PAGE_MASK
        else 0x123 <<< SPI_FLA_SHIFT) ∧
      (res.wpe = false → res.rpe = false →
        res.limit = 0x123 <<< SPI_FLA_SHIFT ∧ res.limit % 4096 = 0) :=
  protected_range_C5 prExampleCat 0 (by decide)

/-- Helper for C8: the byte rearrangement applied by `get_SPI_JEDEC_ID` is
an involution on 24-bit values, so decoding the returned value byte-wise
recovers the three identifier bytes. -/
theorem jedec_byteswap_involutive (x : Nat) (hx : x < 2 ^ 24) :
    jedec_byteswap (jedec_byteswap x) = x := by
  have hhigh : ∀ i, 24 ≤ i → x.testBit i = false := by
    intro i hi
    exact Nat.testBit_lt_two_pow
      (lt_of_lt_of_le hx (Nat.pow_le_pow_right (by norm_num) hi))
  apply Nat.eq_of_testBit_eq
  intro i
  have h255 : (0xFF : Nat) = 2 ^ 8 - 1 := by norm_num
  have h65280 : (0xFF00 : Nat) = (2 ^ 8 - 1) <<< 8 := by decide
  simp only [jedec_byteswap, h255, h65280, Nat.testBit_or, Nat.testBit_and,
    Nat.testBit_shiftLeft, Nat.testBit_shiftRight, Nat.testBit_two_pow_sub_one]
  rcases Nat.lt_or_ge i 8 with hA | hge8
  · simp [show ¬(16 ≤ i) from by omega, show ¬(8 ≤ i) from by omega, hA,
      show (16 : Nat) + i - 16 = i from by omega,
      show ¬(16 + i - 8 < 8) from by omega,
      show ¬(16 + i < 8) from by omega,
      show 16 + i - 16 < 8 from by omega]
  · rcases Nat.lt_or_ge i 16 with hB | hge16
    · simp [show ¬(16 ≤ i) from by omega, hge8,
        show i - 8 < 8 from by omega, show ¬(i < 8) from by omega]
    · rcases Nat.lt_or_ge i 24 with hC | hD
      · simp [hge16, show ¬(16 ≤ i - 16) from by omega,
          show ¬(8 ≤ i - 16) from by omega, show i - 16 < 8 from by omega,
          show 16 + (i - 16) = i from by omega,
          show ¬(i - 8 < 8) from by omega, show ¬(i < 8) from by omega]
      · simp [hge16, show ¬(i - 16 < 8) from by omega,
          show ¬(i - 8 < 8) from by omega, show ¬(i < 8) from by omega,
          hhigh i hD]

/-- C8: when the catalog exposes HSFS.FCYCLE and hardware sequencing is
enabled, `get_SPI_JEDEC_ID` issues exactly one JEDEC cycle with encoded
count 4 at FLA 0 and returns the byte rearrangement
`((id &&& 0xFF) <<< 16) ||| (id &&& 0xFF00) ||| ((id >>> 16) &&& 0xFF)` of
the FDATA0 dword; that rearrangement is an involution on 24-bit values, and
FDATA0 = 0x001720C2 yields the public value 0xC22017. -/
theorem jedec_C8 (hw : JedecHw) (hfc : hw.hasFcycle = true)
    (hfdv : hw.fdv = true) :
    get_SPI_JEDEC_ID hw =
      (Except.ok (some (jedec_byteswap hw.fdata0)),
       [SpiCycle.mk HSFCTL_JEDEC_CYCLE 4 0]) ∧
    (∀ x : Nat, x < 2 ^ 24 → jedec_byteswap (jedec_byteswap x) = x) ∧
    jedec_byteswap 0x001720C2 = 0xC22017 := by
  refine ⟨?_, fun x hx => jedec_byteswap_involutive x hx, rfl⟩
  unfold get_SPI_JEDEC_ID
  rw [if_pos hfc, if_neg (by simp [hfdv])]

/-- C8 witness: a concrete JEDEC read whose FDATA0 dword is 0x001720C2
returns the public value 0xC22017 after one JEDEC cycle with encoded
count 4 at FLA 0. -/
theorem jedec_C8_witness :
    get_SPI_JEDEC_ID (JedecHw.mk true true true 0x001720C2) =
      (Except.ok (some 0xC22017), [SpiCycle.mk HSFCTL_JEDEC_CYCLE 4 0]) :=
  (jedec_C8 (JedecHw.mk true true true 0x001720C2) rfl rfl).1

/-- Helper: left-folding conjunction of `f` over a list equals the initial
accumulator conjoined with `List.all f`; this is the cumulative `write_ok`
flag of `write_spi`. -/
theorem foldl_and_eq_all (f : Nat → Bool) (l : List Nat) (b : Bool) :
    l.foldl (fun acc i => acc && f i) b = (b && l.all f) := by
  induction l generalizing b with
  | nil => simp
  | cons x xs ih => rw [List.foldl_cons, ih, List.all_cons, Bool.and_assoc]

/-- C3: provided hardware sequencing is enabled and the pre-flight wait
succeeds, `write_spi` returns a boolean that is the AND of the per-chunk
WRITE cycle results: true if and only if every issued WRITE cycle
succeeded. -/
theorem write_spi_C3 (hw : SpiHw) (spi_fla : Nat) (buf : List Nat)
    (hfdv : hw.fdv = true) (hwait : hw.preWaitOk = true) :
    ∃ b : Bool,
      (write_spi hw spi_fla buf).1 = Except.ok (some b) ∧
      (b = true ↔ ∀ i < (write_spi hw spi_fla buf).2.length, hw.cycleOk i = true) := by
  by_cases hr : buf.length % 4 = 0
  · simp only [write_spi, hfdv, hwait, hr, Bool.true_eq_false, if_false, if_true,
      ite_true, ite_false]
    refine ⟨_, rfl, ?_⟩
    rw [foldl_and_eq_all, Bool.true_and, List.all_eq_true]
    simp [List.mem_range]
  · simp only [write_spi, hfdv, hwait, hr, Bool.true_eq_false, if_false, if_true,
      ite_true, ite_false]
    refine ⟨_, rfl, ?_⟩
    rw [Bool.and_eq_true, foldl_and_eq_all, Bool.true_and, List.all_eq_true]
    simp only [List.length_append, List.length_map, List.length_range,
      List.length_cons, List.length_nil, List.mem_range]
    constructor
    · rintro ⟨h1, h2⟩ i hi
      rcases Nat.lt_or_ge i (buf.length / 4) with h | h
      · exact h1 i h
      · have hieq : i = buf.length / 4 := by omega
        rw [hieq]; exact h2
    · intro h
      exact ⟨fun i hi => h i (by omega), h _ (by omega)⟩

/-- C3 witness: a concrete 3-byte write on all-succeeding hardware returns
a boolean (true) that matches success of every issued cycle. -/
theorem write_spi_C3_witness :
    ∃ b : Bool,
      (write_spi hwAllOk 0 [1, 2, 3]).1 = Except.ok (some b) ∧
      (b = true ↔ ∀ i < (write_spi hwAllOk 0 [1, 2, 3]).2.length,
        hwAllOk.cycleOk i = true) :=
  write_spi_C3 hwAllOk 0 [1, 2, 3] rfl rfl

/-- Helper: every `List.getD` lookup with default 0 in a list of bytes is
below 256. -/
theorem getD_lt_256 (buf : List Nat) (hb : ∀ b ∈ buf, b < 256) (k : Nat) :
    buf.getD k 0 < 256 := by
  induction buf generalizing k with
  | nil => simp [List.getD]
  | cons x xs ih =>
    cases k with
    | zero => simpa using hb x (List.mem_cons_self x xs)
    | succ k =>
      rw [List.getD_cons_succ]
      exact ih (fun b h => hb b (List.mem_cons_of_mem x h)) k

/-- Helper for C4: the remainder dword packed by `write_spi` keeps its high
bits zero, occupying only the low `8 * r` bits. -/
theorem packRemainder_lt (buf : List Nat) (base r : Nat)
    (hb : ∀ b ∈ buf, b < 256) :
    packRemainder buf base r < 2 ^ (8 * r) := by
  unfold packRemainder
  have key : ∀ (l : List Nat) (acc : Nat), (∀ j ∈ l, j < r) → acc < 2 ^ (8 * r) →
      l.foldl (fun acc j => acc ||| (buf.getD (base + j) 0 <<< (8 * j))) acc <
        2 ^ (8 * r) := by
    intro l
    induction l with
    | nil => intro acc _ hacc; simpa using hacc
    | cons x xs ih =>
      intro acc hl hacc
      rw [List.foldl_cons]
      apply ih
      · intro j hj; exact hl j (List.mem_cons_of_mem x hj)
      · apply Nat.or_lt_two_pow hacc
        have hx : x < r := hl x (List.mem_cons_self x xs)
        have hgetD := getD_lt_256 buf hb (base + x)
        have h1 : buf.getD (base + x) 0 <<< (8 * x) < 2 ^ (8 * (x + 1)) := by
          rw [Nat.shiftLeft_eq]
          have h2 : (2 : Nat) ^ (8 * (x + 1)) = 256 * 2 ^ (8 * x) := by
            rw [show 8 * (x + 1) = 8 + 8 * x from by ring, pow_add]
            norm_num
          rw [h2]
          exact mul_lt_mul_of_pos_right hgetD (by positivity)
        exact lt_of_lt_of_le h1 (Nat.pow_le_pow_right (by norm_num) (by omega))
  apply key
  · intro j hj; exact List.mem_range.mp hj
  · positivity

/-- C4: provided hardware sequencing is enabled, the pre-flight wait
succeeds and the buffer holds bytes, `write_spi` issues exactly one WRITE
chunk per 4-byte group plus one for a nonempty remainder (so exactly
`(n + 3) / 4` cycles for n bytes), packing each full chunk little-endian
into FDATA0 with encoded count 3 and the r-byte remainder little-endian
into the low `8 * r` bits of FDATA0 (high bits zero) with encoded count
`r - 1`; writing the 5 bytes AA BB CC DD EE at FLA 0 produces FDATA0 =
0xDDCCBBAA with count 3 at FADDR 0, then FDATA0 = 0xEE with count 0 at
FADDR 4. -/
theorem write_spi_C4 (hw : SpiHw) (spi_fla : Nat) (buf : List Nat)
    (hfdv : hw.fdv = true) (hwait : hw.preWaitOk = true)
    (hbytes : ∀ b ∈ buf, b < 256) :
    (write_spi hw spi_fla buf).2 =
      ((List.range (buf.length / 4)).map fun i =>
        WriteChunk.mk (packDword buf (i * 4)) 3 (spi_fla + i * 4)) ++
      (if buf.length % 4 = 0 then []
       else [WriteChunk.mk (packRemainder buf (buf.length / 4 * 4) (buf.length % 4))
               (buf.length % 4 - 1) (spi_fla + buf.length / 4 * 4)]) ∧
    (write_spi hw spi_fla buf).2.length = (buf.length + 3) / 4 ∧
    (buf.length % 4 ≠ 0 →
      packRemainder buf (buf.length / 4 * 4) (buf.length % 4) <
        2 ^ (8 * (buf.length % 4))) ∧
    write_spi hwAllOk 0 [0xAA, 0xBB, 0xCC, 0xDD, 0xEE] =
      (Except.ok (some true),
       [WriteChunk.mk 0xDDCCBBAA 3 0, WriteChunk.mk 0xEE 0 4]) := by
  have htr : (write_spi hw spi_fla buf).2 =
      ((List.range (buf.length / 4)).map fun i =>
        WriteChunk.mk (packDword buf (i * 4)) 3 (spi_fla + i * 4)) ++
      (if buf.length % 4 = 0 then []
       else [WriteChunk.mk (packRemainder buf (buf.length / 4 * 4) (buf.length % 4))
               (buf.length % 4 - 1) (spi_fla + buf.length / 4 * 4)]) := by
    by_cases hr : buf.length % 4 = 0
    · simp [write_spi, hfdv, hwait, hr]
    · simp [write_spi, hfdv, hwait, hr]
  refine ⟨htr, ?_, fun _ => packRemainder_lt buf _ _ hbytes, ?_⟩
  · rw [htr]
    by_cases hr : buf.length % 4 = 0
    · rw [if_pos hr]
      simp only [List.length_append, List.length_map, List.length_range,
        List.length_nil]
      omega
    · rw [if_neg hr]
      simp only [List.length_append, List.length_map, List.length_range,
        List.length_cons, List.length_nil]
      omega
  · rfl

/-- C4 witness: the concrete 5-byte write of the spec scenario, on
all-succeeding hardware, has the claimed two-chunk trace. -/
theorem write_spi_C4_witness :
    (write_spi hwAllOk 0 [0xAA, 0xBB, 0xCC, 0xDD, 0xEE]).2 =
      [WriteChunk.mk 0xDDCCBBAA 3 0, WriteChunk.mk 0xEE 0 4] := by
  have h := (write_spi_C4 hwAllOk 0 [0xAA, 0xBB, 0xCC, 0xDD, 0xEE] rfl rfl
    (by decide)).2.2.2
  exact congrArg Prod.snd h

/-- Helper for C1: a successful full READ chunk contributes `dbc / 4 * 4`
bytes. -/
theorem readChunkBytes_length (hw : SpiHw) (ci dbc : Nat) :
    (readChunkBytes hw ci dbc).length = dbc / 4 * 4 := by
  simp only [readChunkBytes, List.length_flatMap, Function.comp_def,
    List.length_map, List.length_range, List.map_const', List.sum_replicate,
    smul_eq_mul]

/-- Helper for C1: a successful remainder READ chunk of `r` bytes
contributes exactly `r` bytes. -/
theorem readRemBytes_length (hw : SpiHw) (ci r : Nat) (hr : r ≠ 0) :
    (readRemBytes hw ci r).length = r := by
  obtain ⟨k, hk⟩ : ∃ k, (r + 3) / 4 = k + 1 := ⟨(r + 3) / 4 - 1, by omega⟩
  simp only [readRemBytes, List.length_flatMap, Function.comp_def,
    List.length_map, List.length_range]
  rw [hk, List.range_succ, List.map_append, List.sum_append]
  have hmap : ((List.range k).map fun i =>
      if i = k + 1 - 1 ∧ r % 4 ≠ 0 then r % 4 else 4) =
      (List.range k).map fun _ => 4 := by
    apply List.map_congr_left
    intro a ha
    rw [if_neg]
    rintro ⟨h1, -⟩
    have := List.mem_range.mp ha
    omega
  rw [hmap, List.map_const', List.sum_replicate, List.length_range, smul_eq_mul]
  simp only [List.map_cons, List.map_nil, List.sum_cons, List.sum_nil]
  by_cases h4 : r % 4 = 0
  · rw [if_neg (by rintro ⟨-, hc⟩; exact hc h4)]
    omega
  · rw [if_pos ⟨by omega, h4⟩]
    omega

/-- Helper for C1: total length of the byte buffer assembled from all full
chunks plus the remainder chunk, for a chunk size `d` that is a positive
multiple of 4. -/
theorem read_buf_length (hw : SpiHw) (n d : Nat) (hd4 : d / 4 * 4 = d) :
    (((List.range (n / d)).flatMap fun i => readChunkBytes hw i d) ++
      (if n % d = 0 then [] else readRemBytes hw (n / d) (n % d))).length = n := by
  rw [List.length_append]
  have h1 : (((List.range (n / d)).flatMap fun i => readChunkBytes hw i d)).length
      = n / d * d := by
    simp only [List.length_flatMap, Function.comp_def, readChunkBytes_length, hd4,
      List.map_const', List.sum_replicate, List.length_range, smul_eq_mul]
  rw [h1]
  by_cases hrm : n % d = 0
  · rw [if_pos hrm, List.length_nil, Nat.add_zero]
    exact Nat.div_mul_cancel (Nat.dvd_of_mod_eq_zero hrm)
  · rw [if_neg hrm, readRemBytes_length hw _ _ hrm, Nat.mul_comm]
    exact Nat.div_add_mod n d

/-- C1: when hardware sequencing is enabled, the pre-flight wait succeeds
and every issued READ cycle succeeds, `read_spi fla n` returns exactly n
bytes; the chunk size is 64 when n is at least 64 and 4 otherwise, one READ
cycle with encoded count dbc-1 is issued per full chunk, and the nonempty
remainder of r bytes gets one READ cycle with encoded count r-1 at the
address following the full chunks (the remainder emitting only its last
`r mod 4` bytes from the final dword, which is what makes the total exactly
n). -/
theorem read_spi_C1 (hw : SpiHw) (spi_fla n : Nat)
    (hfdv : hw.fdv = true) (hwait : hw.preWaitOk = true)
    (hcyc : ∀ i, hw.cycleOk i = true) :
    ∃ buf : List Nat,
      (read_spi hw spi_fla n).1 = Except.ok (some buf) ∧
      buf.length = n ∧
      (read_spi hw spi_fla n).2 =
        ((List.range (n / readDbc n)).map fun i =>
          SpiCycle.mk HSFCTL_READ_CYCLE (readDbc n - 1) (spi_fla + i * readDbc n)) ++
        (if n % readDbc n = 0 then []
         else [SpiCycle.mk HSFCTL_READ_CYCLE (n % readDbc n - 1)
                 (spi_fla + n / readDbc n * readDbc n)]) ∧
      readDbc n = (if n ≥ 64 then 64 else 4) := by
  have heval : read_spi hw spi_fla n =
      (Except.ok (some
        (((List.range (n / readDbc n)).flatMap fun i =>
            readChunkBytes hw i (readDbc n)) ++
         (if n % readDbc n = 0 then []
          else readRemBytes hw (n / readDbc n) (n % readDbc n)))),
       ((List.range (n / readDbc n)).map fun i =>
          SpiCycle.mk HSFCTL_READ_CYCLE (readDbc n - 1) (spi_fla + i * readDbc n)) ++
       (if n % readDbc n = 0 then []
        else [SpiCycle.mk HSFCTL_READ_CYCLE (n % readDbc n - 1)
                (spi_fla + n / readDbc n * readDbc n)])) := by
    by_cases hrm : n % readDbc n = 0
    · simp [read_spi, hfdv, hwait, hcyc, hrm]
    · simp [read_spi, hfdv, hwait, hcyc, hrm]
  have hd4 : readDbc n / 4 * 4 = readDbc n := by
    unfold readDbc; split <;> rfl
  refine ⟨_, by rw [heval], ?_, by rw [heval], rfl⟩
  exact read_buf_length hw n (readDbc n) hd4

/-- C1 witness: reading 70 bytes at FLA 0x1000 on all-succeeding hardware
returns exactly 70 bytes, via one 64-byte chunk and one 6-byte remainder. -/
theorem read_spi_C1_witness :
    ∃ buf : List Nat,
      (read_spi hwAllOk 0x1000 70).1 = Except.ok (some buf) ∧
      buf.length = 70 := by
  obtain ⟨buf, h1, h2, -, -⟩ := read_spi_C1 hwAllOk 0x1000 70 rfl rfl fun _ => rfl
  exact ⟨buf, h1, h2⟩

/-- C6: every region whose FREGx register the catalog defines decodes to
`(base, limit) = (RB <<< 12, (RL <<< 12) ||| 0xFFF)`; it always appears in
`get_SPI_regions` with `all_regions = true`, and it appears with
`all_regions = false` exactly when its limit is at least its base (the
regions with limit < base are the ones omitted); FREG1 raw = 0x0BFF0003
decodes to base 0x00003000 and limit 0x0BFFFFF. -/
theorem regions_C6 (cat : FregCatalog) (r : Nat)
    (hr : r < SPI_REGION_NUMBER_IN_FD) (hdef : cat.defined r = true) :
    get_SPI_region cat r =
      some (fregRB (cat.raw r) <<< 12, (fregRL (cat.raw r) <<< 12) ||| 0xFFF,
            cat.raw r) ∧
    (∃ p ∈ get_SPI_regions cat true, p.1 = r) ∧
    ((∃ p ∈ get_SPI_regions cat false, p.1 = r) ↔
      fregRB (cat.raw r) <<< 12 ≤ (fregRL (cat.raw r) <<< 12) ||| 0xFFF) ∧
    get_SPI_region fregExampleCat 1 = some (0x00003000, 0x0BFFFFF, 0x0BFF0003) := by
  have hdecode : get_SPI_region cat r =
      some (fregRB (cat.raw r) <<< 12, (fregRL (cat.raw r) <<< 12) ||| 0xFFF,
            cat.raw r) := by
    unfold get_SPI_region
    rw [if_neg (by simp [hdef])]
    rfl
  refine ⟨hdecode, ?_, ?_, rfl⟩
  · refine ⟨(r, fregRB (cat.raw r) <<< 12, (fregRL (cat.raw r) <<< 12) ||| 0xFFF,
      ((((fregRL (cat.raw r) <<< 12) ||| 0xFFF : Nat) : Int) -
        ((fregRB (cat.raw r) <<< 12 : Nat) : Int) + 1), cat.raw r), ?_, rfl⟩
    unfold get_SPI_regions
    apply List.mem_filterMap.mpr
    refine ⟨r, List.mem_range.mpr hr, ?_⟩
    rw [hdecode]
    simp
  · constructor
    · rintro ⟨p, hp, hp1⟩
      unfold get_SPI_regions at hp
      obtain ⟨a, -, hfa⟩ := List.mem_filterMap.mp hp
      rcases hga : get_SPI_region cat a with - | q
      · simp only [hga] at hfa
        exact absurd hfa (by simp)
      · obtain ⟨b1, b2, b3⟩ := q
        simp only [hga] at hfa
        by_cases hcond : b1 ≤ b2
        · rw [if_pos (by simp [hcond])] at hfa
          have hpe := Option.some.inj hfa
          have ha : a = r := by rw [← hpe] at hp1; exact hp1
          rw [ha] at hga
          rw [hdecode] at hga
          have htrip := Option.some.inj hga
          have hb1 : fregRB (cat.raw r) <<< 12 = b1 := congrArg Prod.fst htrip
          have hb2 : (fregRL (cat.raw r) <<< 12) ||| 0xFFF = b2 :=
            congrArg (fun t => t.2.1) htrip
          rw [hb1, hb2]
          exact hcond
        · rw [if_neg (by simp [hcond])] at hfa
          exact absurd hfa (by simp)
    · intro hle
      refine ⟨(r, fregRB (cat.raw r) <<< 12, (fregRL (cat.raw r) <<< 12) ||| 0xFFF,
        ((((fregRL (cat.raw r) <<< 12) ||| 0xFFF : Nat) : Int) -
          ((fregRB (cat.raw r) <<< 12 : Nat) : Int) + 1), cat.raw r), ?_, rfl⟩
      unfold get_SPI_regions
      apply List.mem_filterMap.mpr
      refine ⟨r, List.mem_range.mpr hr, ?_⟩
      rw [hdecode]
      simp [hle]

/-- C6 witness: region 1 of the concrete example catalog (FREG1 raw =
0x0BFF0003) decodes to base 0x00003000 and limit 0x0BFFFFF and appears in
the available-regions listing. -/
theorem regions_C6_witness :
    get_SPI_region fregExampleCat 1 =
      some (0x00003000, 0x0BFFFFF, 0x0BFF0003) ∧
    (∃ p ∈ get_SPI_regions fregExampleCat false, p.1 = 1) := by
  obtain ⟨h1, -, h3, -⟩ := regions_C6 fregExampleCat 1 (by decide) rfl
  exact ⟨h1, h3.mpr (by decide)⟩

end ChipsecSpi
